import Mathlib

/-!
Verification development for the todo-mcp sync core.

The definitions below are a shallow embedding of the Rust sources:

* src/backends/multicast.rs — data model (TodoItem, TodoList, TodoState,
  TodoCommand, TodoEvent), the replica state (SiteState), the local-command
  handler (write_notify) and the remote-message handler (read_notify);
* src/backends/proto.rs — the datagram fragmentation codec
  (McastSender::send, SitePartials) and the length-prefixed stream codec
  (write_message, read_message).

The automerge/autosurgeon CRDT library is external to the repository; it is
modelled here at exactly the interface the sources use: a document is a set
of changes identified by hash (change application is idempotent by hash, as
in automerge), hydrate reads the materialised TodoState, reconcile records a
new change when the materialised value differs, save_incremental flushes the
changes recorded since the previous call, load/merge add the missing changes
of another document. The bincode wire encoding (standard configuration:
variable-length integers, length-prefixed byte arrays, little-endian) is
modelled concretely for the SyncMessage type. Machine integers (u32, usize)
are modelled as Nat; the sources never overflow them on the inputs the
claims quantify over, and where a width matters the theorems carry explicit
bounds.
-/

/-- A single todo item (multicast.rs, struct TodoItem). The Rust
HashMap metadata is modelled as an association list; no claim inspects it. -/
structure TodoItem where
  text : String
  completed : Bool
  metadata : List (String × String)
deriving DecidableEq

/-- A titled ordered list of items (multicast.rs, struct TodoList). -/
structure TodoList where
  title : String
  items : List TodoItem
  metadata : List (String × String)
deriving DecidableEq

/-- The full replicated document (multicast.rs, struct TodoState). -/
structure TodoState where
  lists : List TodoList
deriving DecidableEq

/-- Events published to the caller (multicast.rs, enum TodoEvent). -/
inductive TodoEvent where
  | stateUpdate (state : TodoState)
  | connectionStatus (message : String)
deriving DecidableEq

/-- Commands consumed by the local-command handler (multicast.rs, enum
TodoCommand). The Shutdown variant carries a oneshot acknowledgement handle
in Rust; the handle itself has no observable content, so it is dropped here
and the forwarding of the acknowledgement is recorded as a flag in the
handler output. -/
inductive TodoCommand where
  | addList (title : String) (metadata : List (String × String))
  | removeList (listIndex : Nat)
  | renameList (listIndex : Nat) (title : String)
  | addTodo (listIndex : Nat) (text : String) (metadata : List (String × String))
  | renameTodo (listIndex : Nat) (itemIndex : Nat) (text : String)
  | toggleTodo (listIndex : Nat) (itemIndex : Nat)
  | removeTodo (listIndex : Nat) (itemIndex : Nat)
  | clearCompleted (listIndex : Nat)
  | shutdown
deriving DecidableEq

/-- One CRDT change. Models an automerge change: identified by its hash
(here a Nat) and carrying an effect on the materialised document value.
Change application is idempotent by hash, as in automerge. -/
structure Change where
  id : Nat
  eff : TodoState → TodoState

/-- The CRDT document held in SiteState.commit (an automerge AutoCommit).
Fields: the actor id, the materialised TodoState (what hydrate returns),
the list of changes applied so far (the change graph, in application
order), the changes recorded since the last save_incremental call, and a
counter supplying fresh change ids for locally generated changes. -/
structure Doc where
  actor : Nat
  state : TodoState
  applied : List Change
  pending : List Change
  nextId : Nat

/-- The change hashes present in a document. -/
def Doc.ids (d : Doc) : List Nat := d.applied.map (fun c => c.id)

/-- Apply one incoming change: a change whose hash is already in the graph
is a no-op (automerge change application is idempotent by hash); a new
change transforms the materialised state and joins both the graph and the
incremental-save buffer. -/
def applyChange (d : Doc) (c : Change) : Doc :=
  if c.id ∈ d.ids then d
  else { d with
    state := c.eff d.state
    applied := d.applied ++ [c]
    pending := d.pending ++ [c] }

/-- Apply a list of incoming changes in order. Models both
AutoCommit::load_incremental on a well-formed delta blob and
AutoCommit::merge with a loaded remote document (both add the changes the
local graph is missing). -/
def applyChanges (d : Doc) (cs : List Change) : Doc :=
  cs.foldl applyChange d

/-- Models an autosurgeon reconcile of a new materialised value into the
document: when the value is unchanged no operations (hence no change) are
produced; otherwise a fresh change recording the new value is committed. -/
def reconcile (d : Doc) (value : TodoState) : Doc :=
  if value = d.state then d
  else
    let c : Change := { id := d.nextId, eff := fun _ => value }
    { d with
      state := value
      applied := d.applied ++ [c]
      pending := d.pending ++ [c]
      nextId := d.nextId + 1 }

/-- A full-state document as carried in State/Announce payloads and in the
save file: what AutoCommit::load recovers from a well-formed blob. -/
structure RDoc where
  state : TodoState
  actor : Nat
  changes : List Change

/-- Models AutoCommit::load of a well-formed full-state blob: a freshly
loaded document has an empty incremental-save buffer. -/
def loadRDoc (r : RDoc) : Doc :=
  { actor := r.actor, state := r.state, applied := r.changes, pending := [], nextId := 0 }

/-- Models AutoCommit::save: the full-state blob of the current document. -/
def saveDoc (d : Doc) : RDoc :=
  { state := d.state, actor := d.actor, changes := d.applied }

/-- Models AutoCommit::new followed by nothing: a fresh empty document with
the given (randomly generated in Rust) actor id. -/
def freshDoc (actor : Nat) : Doc :=
  { actor := actor, state := { lists := [] }, applied := [], pending := [], nextId := 0 }

/-- An incremental-delta payload as carried in DeltaChange messages:
either bytes that AutoCommit::load_incremental rejects, or a well-formed
blob carrying a list of changes. -/
inductive DeltaBlob where
  | malformed
  | good (changes : List Change)

/-- A full-state payload as carried in State/Announce messages: either
bytes that AutoCommit::load rejects, or a well-formed saved document. -/
inductive StateBlob where
  | malformed
  | good (doc : RDoc)

/-- The sync wire protocol at the level the handlers see it
(multicast.rs, enum SyncMessage), with the opaque byte payloads replaced by
their CRDT-level reading. The byte-exact SyncMessage used by the codecs is
defined separately below. -/
inductive MSyncMessage where
  | deltaChange (blob : DeltaBlob)
  | state (blob : StateBlob)
  | requestState (siteId : Nat)
  | announce (blob : StateBlob)
  | alive
  | shutdown

/-- SiteState::merge (multicast.rs): load the remote full state; if the
local document hydrates to an empty list of lists, replace the local
document with the remote one rebound (with_actor) to the local actor id;
otherwise merge the remote document in. Returns none when AutoCommit::load
fails, which the caller propagates. -/
def mergeState (d : Doc) (b : StateBlob) : Option Doc :=
  match b with
  | .malformed => none
  | .good r =>
    if d.state.lists.isEmpty then
      some { loadRDoc r with actor := d.actor }
    else
      some (applyChanges d r.changes)

/-- The replica state behind the RwLock (multicast.rs, struct SiteState):
the CRDT document and the alive table. The Rust BTreeMap from site id to
Instant is modelled as an association list from site id to a Nat
timestamp; handler steps that touch it take the current time as an
argument. -/
structure SiteState where
  commit : Doc
  alive : List (Nat × Nat)

/-- SiteState::new (multicast.rs): when the save file is present and loads,
hydrate it and emit a StateUpdate with its contents; when the file loads
but hydration or parsing fails the error propagates (none); when the file
is absent, create a fresh document, reconcile the default empty state into
it, and emit an empty StateUpdate. The fresh actor id (random in
automerge) is a parameter. -/
def loadSite (fileData : Option StateBlob) (freshActor : Nat) :
    Option (SiteState × List TodoEvent) :=
  match fileData with
  | some .malformed => none
  | some (.good r) =>
    some ({ commit := loadRDoc r, alive := [] }, [.stateUpdate r.state])
  | none =>
    let d := reconcile (freshDoc freshActor) { lists := [] }
    some ({ commit := d, alive := [] }, [.stateUpdate { lists := [] }])

/-- Keyed insert into the alive table (BTreeMap::insert): replace the
entry for the site if present, otherwise add one. -/
def insertAlive (id now : Nat) : List (Nat × Nat) → List (Nat × Nat)
  | [] => [(id, now)]
  | p :: rest => if p.1 = id then (id, now) :: rest else p :: insertAlive id now rest

/-- SiteState::update_aliveness (multicast.rs): insert/refresh the incoming
site id when given, prune entries whose last-seen instant is 5 or more
seconds old, and emit a ConnectionStatus event when the count changed. -/
def updateAliveness (now : Nat) (alive : List (Nat × Nat)) (incoming : Option Nat) :
    List (Nat × Nat) × List TodoEvent :=
  let before := alive.length
  let alive1 :=
    match incoming with
    | some id => insertAlive id now alive
    | none => alive
  let alive2 := alive1.filter (fun p => now - p.2 < 5)
  if alive2.length ≠ before then
    (alive2, [.connectionStatus ("Connections: " ++ toString alive2.length)])
  else
    (alive2, [])

/-- SiteState::shutdown_site (multicast.rs): drop the site from the alive
table and unconditionally emit a ConnectionStatus event. -/
def shutdownSite (alive : List (Nat × Nat)) (incoming : Nat) :
    List (Nat × Nat) × List TodoEvent :=
  let alive1 := alive.filter (fun p => p.1 ≠ incoming)
  (alive1,
   [.connectionStatus ("Site Disconnected, Connections: " ++ toString alive1.length)])

/-- The state read_notify threads between messages: the shared SiteState
and its local state_set of origins whose full state has been merged. -/
structure ReadState where
  site : SiteState
  stateSet : List Nat

/-- The observable outcome of one read_notify loop iteration: the
resulting state, the TodoEvents sent to the caller, the SyncMessages sent
on the outbound channel, the number of save requests issued, and whether
the iteration ended in an error that the ? operator propagates out of
read_notify (terminating the handler task). -/
structure ReadOut where
  state : ReadState
  events : List TodoEvent
  outbound : List MSyncMessage
  saves : Nat
  halt : Bool

/-- Inserting an origin into the state_seen set (HashSet::insert). -/
def insertSet (x : Nat) (s : List Nat) : List Nat :=
  if x ∈ s then s else s ++ [x]

/-- The shared State/Announce arm of read_notify (multicast.rs): merge the
payload (a load failure propagates, halting the handler), emit a
StateUpdate with the merged document, record the origin in state_seen,
request a save, and for Announce additionally reply with our own full
state on the outbound channel. -/
def readMergeArm (s : ReadState) (origin : Nat) (isAnnounce : Bool) (b : StateBlob) :
    ReadOut :=
  match mergeState s.site.commit b with
  | none => { state := s, events := [], outbound := [], saves := 0, halt := true }
  | some commit =>
    { state := { site := { commit := commit, alive := s.site.alive },
                 stateSet := insertSet origin s.stateSet }
      events := [.stateUpdate commit.state]
      outbound := if isAnnounce then [.state (.good (saveDoc commit))] else []
      saves := 1
      halt := false }

/-- One iteration of the read_notify message loop (multicast.rs): skip
messages originating from the local site id, otherwise dispatch on the
message. DeltaChange from an origin in state_seen applies the delta (a
load_incremental failure propagates, halting the handler), emits a
StateUpdate and requests a save; DeltaChange from an unknown origin sends
RequestState instead. State/Announce use the merge arm. RequestState for
the local site id replies with our full state. Alive and Shutdown update
the alive table. -/
def readNotifyStep (siteId now : Nat) (s : ReadState) (origin : Nat)
    (msg : MSyncMessage) : ReadOut :=
  if origin = siteId then
    { state := s, events := [], outbound := [], saves := 0, halt := false }
  else
    match msg with
    | .deltaChange b =>
      if origin ∈ s.stateSet then
        match b with
        | .malformed =>
          { state := s, events := [], outbound := [], saves := 0, halt := true }
        | .good cs =>
          let commit := applyChanges s.site.commit cs
          { state := { site := { commit := commit, alive := s.site.alive },
                       stateSet := s.stateSet }
            events := [.stateUpdate commit.state]
            outbound := []
            saves := 1
            halt := false }
      else
        { state := s, events := [], outbound := [.requestState origin], saves := 0,
          halt := false }
    | .state b => readMergeArm s origin false b
    | .announce b => readMergeArm s origin true b
    | .requestState requestedSiteId =>
      if requestedSiteId = siteId then
        { state := s, events := [], outbound := [.state (.good (saveDoc s.site.commit))],
          saves := 0, halt := false }
      else
        { state := s, events := [], outbound := [], saves := 0, halt := false }
    | .alive =>
      let (alive, events) := updateAliveness now s.site.alive (some origin)
      { state := { site := { commit := s.site.commit, alive := alive },
                   stateSet := s.stateSet }
        events := events, outbound := [], saves := 0, halt := false }
    | .shutdown =>
      let (alive, events) := shutdownSite s.site.alive origin
      { state := { site := { commit := s.site.commit, alive := alive },
                   stateSet := s.stateSet }
        events := events, outbound := [], saves := 0, halt := false }

/-- The cumulative outcome of running the read_notify loop over a list of
inbound messages. -/
structure RunOut where
  state : ReadState
  events : List TodoEvent
  outbound : List MSyncMessage
  saves : Nat
  halted : Bool

/-- Run read_notify over a list of (arrival time, origin site id, message)
triples. An iteration whose error the ? operator propagates terminates the
loop: the remaining messages are never handled. -/
def runRead (siteId : Nat) : ReadState → List (Nat × Nat × MSyncMessage) → RunOut
  | s, [] => { state := s, events := [], outbound := [], saves := 0, halted := false }
  | s, (now, origin, msg) :: rest =>
    let o := readNotifyStep siteId now s origin msg
    if o.halt then
      { state := o.state, events := o.events, outbound := o.outbound, saves := o.saves,
        halted := true }
    else
      let r := runRead siteId o.state rest
      { state := r.state, events := o.events ++ r.events,
        outbound := o.outbound ++ r.outbound, saves := o.saves + r.saves,
        halted := r.halted }

/-- The mutation part of one write_notify arm (multicast.rs): hydrate the
current state, apply the command's edit when its indices are in range,
reconcile the edited value back into the document, and report whether a
save should be requested (the should_notify_save flag). Mirrors the Rust
match arm for arm: the index guards, and which arms reconcile even when the
item index misses (RenameTodo) versus not at all (ToggleTodo, RemoveTodo),
are as in the source. Shutdown is handled outside this helper. -/
def writeMutate (d : Doc) (cmd : TodoCommand) : Doc × Bool :=
  let cs := d.state
  match cmd with
  | .addList title metadata =>
    (reconcile d { lists := cs.lists ++ [{ title := title, items := [], metadata := metadata }] },
     true)
  | .removeList listIndex =>
    if listIndex < cs.lists.length then
      (reconcile d { lists := cs.lists.eraseIdx listIndex }, true)
    else (d, false)
  | .renameList listIndex title =>
    match cs.lists[listIndex]? with
    | some l =>
      (reconcile d { lists := cs.lists.set listIndex { l with title := title } }, true)
    | none => (d, false)
  | .addTodo listIndex text metadata =>
    match cs.lists[listIndex]? with
    | some l =>
      (reconcile d
        { lists := cs.lists.set listIndex
            { l with items :=
                l.items ++ [{ text := text, completed := false, metadata := metadata }] } },
       true)
    | none => (d, false)
  | .renameTodo listIndex itemIndex text =>
    match cs.lists[listIndex]? with
    | some l =>
      let l1 :=
        match l.items[itemIndex]? with
        | some item => { l with items := l.items.set itemIndex { item with text := text } }
        | none => l
      (reconcile d { lists := cs.lists.set listIndex l1 }, true)
    | none => (d, false)
  | .toggleTodo listIndex itemIndex =>
    match cs.lists[listIndex]? with
    | some l =>
      match l.items[itemIndex]? with
      | some item =>
        (reconcile d
          { lists := cs.lists.set listIndex
              { l with items :=
                  l.items.set itemIndex { item with completed := !item.completed } } },
         true)
      | none => (d, false)
    | none => (d, false)
  | .removeTodo listIndex itemIndex =>
    match cs.lists[listIndex]? with
    | some l =>
      if itemIndex < l.items.length then
        (reconcile d
          { lists := cs.lists.set listIndex { l with items := l.items.eraseIdx itemIndex } },
         true)
      else (d, false)
    | none => (d, false)
  | .clearCompleted listIndex =>
    match cs.lists[listIndex]? with
    | some l =>
      (reconcile d
        { lists := cs.lists.set listIndex
            { l with items := l.items.filter (fun item => !item.completed) } },
       true)
    | none => (d, false)
  | .shutdown => (d, false)

/-- The observable outcome of one write_notify loop iteration: the
resulting document, the TodoEvents sent to the caller (write_notify has no
handle on the event channel, so this is always empty), the messages handed
to the outbound try_send (dropped silently by the channel when full), the
number of plain save requests issued, and whether the caller's shutdown
acknowledgement handle was forwarded to the save task. -/
structure WriteOut where
  doc : Doc
  events : List TodoEvent
  outbound : List MSyncMessage
  saves : Nat
  ackForwarded : Bool

/-- One iteration of the write_notify command loop (multicast.rs): for
Shutdown, forward the acknowledgement handle to the save task and send a
Shutdown message outbound; for every other command, run the mutation arm —
every such arm ends with DeltaChange(save_incremental()), so exactly one
DeltaChange carrying the flushed incremental-save buffer is attempted on
the outbound channel, followed by a plain save request when the arm set
should_notify_save. -/
def writeNotifyStep (d : Doc) (cmd : TodoCommand) : WriteOut :=
  match cmd with
  | .shutdown =>
    { doc := d, events := [], outbound := [.shutdown], saves := 0, ackForwarded := true }
  | c =>
    let (d1, save) := writeMutate d c
    { doc := { d1 with pending := [] }
      events := []
      outbound := [.deltaChange (.good d1.pending)]
      saves := if save then 1 else 0
      ackForwarded := false }

/-- Whether a command of the seven index-taking kinds is out of range for
the given state: the list index misses, or, for the three item-level
commands, the item index misses within an existing list. -/
def cmdOutOfRange (cmd : TodoCommand) (cs : TodoState) : Bool :=
  match cmd with
  | .removeList listIndex => cs.lists.length ≤ listIndex
  | .renameList listIndex _ => cs.lists.length ≤ listIndex
  | .addTodo listIndex _ _ => cs.lists.length ≤ listIndex
  | .renameTodo listIndex itemIndex _ =>
    match cs.lists[listIndex]? with
    | some l => l.items.length ≤ itemIndex
    | none => true
  | .toggleTodo listIndex itemIndex =>
    match cs.lists[listIndex]? with
    | some l => l.items.length ≤ itemIndex
    | none => true
  | .removeTodo listIndex itemIndex =>
    match cs.lists[listIndex]? with
    | some l => l.items.length ≤ itemIndex
    | none => true
  | .clearCompleted listIndex => cs.lists.length ≤ listIndex
  | _ => false

/-- Big-endian 4-byte encoding of a u32 (u32::to_be_bytes). Bytes are
modelled as Nats below 256. -/
def be32 (n : Nat) : List Nat :=
  [n / 2 ^ 24 % 256, n / 2 ^ 16 % 256, n / 2 ^ 8 % 256, n % 256]

/-- Big-endian decoding of a 4-byte slice (u32::from_be_bytes). -/
def dec32 (bs : List Nat) : Nat :=
  bs.foldl (fun acc b => acc * 256 + b) 0

/-- The per-packet body capacity of the multicast sender
(proto.rs, BUF_SIZE). -/
def BUF_SIZE : Nat := 1400

/-- The fragment-emission loop of McastSender::send (proto.rs): while bytes
remain, emit a packet of the 16-byte header (site id, seq, num, idx, each
u32 big-endian) followed by the next chunk of at most BUF_SIZE bytes,
incrementing idx. The num value is fixed by the caller for the whole
message. -/
def sendChunks (siteId seq num idx : Nat) (val : List Nat) : List (List Nat) :=
  if h : val.length = 0 then []
  else
    (be32 siteId ++ be32 seq ++ be32 num ++ be32 idx ++ val.take BUF_SIZE) ::
      sendChunks siteId seq num (idx + 1) (val.drop BUF_SIZE)
termination_by val.length
decreasing_by
  simp only [List.length_drop, BUF_SIZE]
  omega

/-- McastSender::send (proto.rs) below the serialisation call: fragment the
already-serialised bytes of one message, stamping every packet with
num = val.len() / BUF_SIZE + 1. The sender then increments its seq. -/
def mcastSendFragments (siteId seq : Nat) (val : List Nat) : List (List Nat) :=
  sendChunks siteId seq (val.length / BUF_SIZE + 1) 0 val

/-- Per-origin reassembly state (proto.rs, struct SitePartials): the seq
currently being assembled, its expected fragment count, and the fragments
received so far as (idx, body) pairs in arrival order. -/
structure SitePartials where
  seq : Nat
  num : Nat
  partials : List (Nat × List Nat)

/-- The Default impl for SitePartials (proto.rs). -/
def spDefault : SitePartials :=
  { seq := 0, num := 0, partials := [] }

/-- SitePartials::fill_from_buffer (proto.rs): parse seq, num and idx from
the 16-byte header; when the seq differs from the one being assembled,
reset the fragment buffer and adopt the new seq and num; then append the
(idx, body) pair. -/
def fillFromBuffer (sp : SitePartials) (buf : List Nat) : SitePartials :=
  let seq := dec32 ((buf.drop 4).take 4)
  let num := dec32 ((buf.drop 8).take 4)
  let idx := dec32 ((buf.drop 12).take 4)
  let body := buf.drop 16
  let sp1 := if seq ≠ sp.seq then { seq := seq, num := num, partials := [] } else sp
  { sp1 with partials := sp1.partials ++ [(idx, body)] }

/-- Stable insertion of one fragment into a list sorted by idx; an
incoming fragment goes before strictly larger indices and after equal
ones, matching the stability of Rust's sort_by. -/
def insertByIdx (p : Nat × List Nat) : List (Nat × List Nat) → List (Nat × List Nat)
  | [] => [p]
  | q :: rest => if p.1 < q.1 then p :: q :: rest else q :: insertByIdx p rest

/-- Stable sort of the fragment list by idx (Vec::sort_by on the idx
component). -/
def sortByIdx : List (Nat × List Nat) → List (Nat × List Nat)
  | [] => []
  | p :: rest => insertByIdx p (sortByIdx rest)

/-- SitePartials::get_buffer (proto.rs): nothing to deliver until the
number of stored fragments equals num; then take the fragments out, sort
them by idx and concatenate their bodies. -/
def getBuffer (sp : SitePartials) : SitePartials × Option (List Nat) :=
  if sp.partials.length ≠ sp.num then (sp, none)
  else
    ({ sp with partials := [] },
     some (((sortByIdx sp.partials).map (fun p => p.2)).flatten))

/-- One datagram arriving at the receiver for one origin site
(McastReceiver::poll_next, proto.rs): datagrams below the 16-byte header
are ignored; otherwise the fragment is stored and a completed buffer, if
any, is delivered. The per-site lookup of the Rust HashMap and the bincode
decoding of a delivered buffer sit above this function; the claims are
stated at the level of the reassembled serialised bytes. -/
def recvStep (sp : SitePartials) (buf : List Nat) : SitePartials × Option (List Nat) :=
  if buf.length < 16 then (sp, none)
  else getBuffer (fillFromBuffer sp buf)

/-- Feed a list of datagrams from one origin through the receiver,
collecting every delivered reassembled message in order. -/
def recvRun (sp : SitePartials) : List (List Nat) → List (List Nat)
  | [] => []
  | b :: rest =>
    match recvStep sp b with
    | (sp1, some m) => m :: recvRun sp1 rest
    | (sp1, none) => recvRun sp1 rest

/-- Little-endian bytes of a Nat, k bytes wide (bincode standard stores
multi-byte integers little-endian). -/
def leBytes : Nat → Nat → List Nat
  | 0, _ => []
  | k + 1, n => n % 256 :: leBytes k (n / 256)

/-- Little-endian decoding of a byte list. -/
def leDec (bs : List Nat) : Nat :=
  bs.foldr (fun b acc => b + 256 * acc) 0

/-- The bincode standard-configuration variable-length encoding of an
unsigned integer: values below 251 are a single byte; 251, 252 and 253
introduce little-endian u16, u32 and u64 payloads respectively. -/
def varint (n : Nat) : List Nat :=
  if n < 251 then [n]
  else if n < 2 ^ 16 then 251 :: leBytes 2 n
  else if n < 2 ^ 32 then 252 :: leBytes 4 n
  else 253 :: leBytes 8 n

/-- Decoding of the bincode variable-length integer, returning the value
and the remaining bytes; none models a bincode decode error (truncated
input, or a width marker the target type cannot hold). -/
def varintDec : List Nat → Option (Nat × List Nat)
  | [] => none
  | b :: rest =>
    if b < 251 then some (b, rest)
    else if b = 251 then
      if rest.length < 2 then none else some (leDec (rest.take 2), rest.drop 2)
    else if b = 252 then
      if rest.length < 4 then none else some (leDec (rest.take 4), rest.drop 4)
    else if b = 253 then
      if rest.length < 8 then none else some (leDec (rest.take 8), rest.drop 8)
    else none

/-- The sync wire protocol as serialised on streams (multicast.rs, enum
SyncMessage), with the payloads as raw bytes. -/
inductive SyncMessage where
  | deltaChange (bytes : List Nat)
  | state (bytes : List Nat)
  | requestState (siteId : Nat)
  | announce (bytes : List Nat)
  | alive
  | shutdown
deriving DecidableEq

/-- Well-formedness of a message as a value of the Rust type: the
RequestState payload is a u32. -/
def SyncMessage.wf : SyncMessage → Prop
  | .requestState siteId => siteId < 2 ^ 32
  | _ => True

/-- Models bincode::serde::encode_to_vec of a SyncMessage under the
standard configuration: the variant index as a varint discriminant,
Vec of u8 payloads as a varint length followed by the raw bytes, and the
u32 payload of RequestState as a varint. -/
def encodeSync : SyncMessage → List Nat
  | .deltaChange v => varint 0 ++ varint v.length ++ v
  | .state v => varint 1 ++ varint v.length ++ v
  | .requestState siteId => varint 2 ++ varint siteId
  | .announce v => varint 3 ++ varint v.length ++ v
  | .alive => varint 4
  | .shutdown => varint 5

/-- Decoding a length-prefixed byte vector (bincode Vec of u8). -/
def decodeBytes (bs : List Nat) : Option (List Nat × List Nat) :=
  match varintDec bs with
  | none => none
  | some (len, r) =>
    if r.length < len then none else some (r.take len, r.drop len)

/-- Models bincode::serde::decode_from_slice for SyncMessage: read the
varint discriminant and then the variant's payload, returning the message
and the unconsumed remainder; none models a decode error. -/
def decodeSync (bs : List Nat) : Option (SyncMessage × List Nat) :=
  match varintDec bs with
  | none => none
  | some (tag, r1) =>
    match tag with
    | 0 =>
      match decodeBytes r1 with
      | some (v, r2) => some (.deltaChange v, r2)
      | none => none
    | 1 =>
      match decodeBytes r1 with
      | some (v, r2) => some (.state v, r2)
      | none => none
    | 2 =>
      match varintDec r1 with
      | some (siteId, r2) =>
        if siteId < 2 ^ 32 then some (.requestState siteId, r2) else none
      | none => none
    | 3 =>
      match decodeBytes r1 with
      | some (v, r2) => some (.announce v, r2)
      | none => none
    | 4 => some (.alive, r1)
    | 5 => some (.shutdown, r1)
    | _ => none

/-- write_message (proto.rs): encode the message and write a 4-byte
big-endian length prefix followed by the encoded body. Returns the bytes
put on the stream. -/
def writeMessage (msg : SyncMessage) : List Nat :=
  be32 (encodeSync msg).length ++ encodeSync msg

/-- The 64 MiB frame bound of read_message (proto.rs). -/
def MAX_FRAME : Nat := 64 * 1024 * 1024

/-- read_message (proto.rs) over the remaining bytes of a stream: a stream
that ends before a complete 4-byte length prefix is a graceful close
(ok none, from the UnexpectedEof arm); a length above 64 MiB is an error;
a stream ending before the full body is an error (the second read_exact is
not caught); a bincode decode failure is an error; otherwise the decoded
message and the rest of the stream are returned. -/
def readMessage (s : List Nat) : Except String (Option (SyncMessage × List Nat)) :=
  if s.length < 4 then .ok none
  else
    let len := dec32 (s.take 4)
    let rest := s.drop 4
    if MAX_FRAME < len then .error "Message too large"
    else if rest.length < len then .error "unexpected end of stream"
    else
      match decodeSync (rest.take len) with
      | some (msg, _) => .ok (some (msg, rest.drop len))
      | none => .error "decode error"

/-- Setting an index of a list to the element already there is the
identity. -/
theorem list_set_of_getElem? {α : Type} :
    ∀ (l : List α) (i : Nat) (x : α), l[i]? = some x → l.set i x = l
  | [], i, x, h => by simp at h
  | a :: t, 0, x, h => by
    simp only [List.getElem?_cons_zero, Option.some.injEq] at h
    simp [h]
  | a :: t, i + 1, x, h => by
    simp only [List.getElem?_cons_succ] at h
    simp [list_set_of_getElem? t i x h]

/-- A change already in the graph stays there across one application. -/
theorem mem_ids_applyChange_left {d : Doc} {x : Nat} (c : Change) (h : x ∈ d.ids) :
    x ∈ (applyChange d c).ids := by
  unfold applyChange
  split
  · exact h
  · simp only [Doc.ids, List.map_append]
    exact List.mem_append_left _ h

/-- Applying a change puts its hash in the graph. -/
theorem mem_ids_applyChange_self (d : Doc) (c : Change) :
    c.id ∈ (applyChange d c).ids := by
  unfold applyChange
  split
  · assumption
  · simp [Doc.ids]

/-- Hashes in the graph survive applying a list of changes. -/
theorem mem_ids_applyChanges_left {x : Nat} :
    ∀ (cs : List Change) (d : Doc), x ∈ d.ids → x ∈ (applyChanges d cs).ids
  | [], _, h => h
  | c :: rest, d, h =>
    mem_ids_applyChanges_left rest (applyChange d c) (mem_ids_applyChange_left c h)

/-- Every applied change's hash is in the resulting graph. -/
theorem mem_ids_applyChanges_self {c : Change} :
    ∀ (cs : List Change) (d : Doc), c ∈ cs → c.id ∈ (applyChanges d cs).ids := by
  intro cs
  induction cs with
  | nil => intro d h; cases h
  | cons a rest ih =>
    intro d h
    cases h with
    | head =>
      exact mem_ids_applyChanges_left rest (applyChange d c) (mem_ids_applyChange_self d c)
    | tail _ hmem => exact ih (applyChange d a) hmem

/-- Applying a change whose hash is already present is a no-op. -/
theorem applyChange_of_mem {d : Doc} {c : Change} (h : c.id ∈ d.ids) :
    applyChange d c = d := by
  unfold applyChange
  exact if_pos h

/-- Applying changes whose hashes are all present is a no-op. -/
theorem applyChanges_of_subset :
    ∀ (cs : List Change) (d : Doc), (∀ c ∈ cs, c.id ∈ d.ids) → applyChanges d cs = d := by
  intro cs
  induction cs with
  | nil => intro d _; rfl
  | cons a rest ih =>
    intro d h
    have ha : applyChange d a = d := applyChange_of_mem (h a (List.mem_cons_self a rest))
    show applyChanges (applyChange d a) rest = d
    rw [ha]
    exact ih d (fun c hc => h c (List.mem_cons_of_mem a hc))

/-- Applying the same change list twice gives the same document as
applying it once: automerge change application is idempotent by hash. -/
theorem applyChanges_idem (d : Doc) (cs : List Change) :
    applyChanges (applyChanges d cs) cs = applyChanges d cs :=
  applyChanges_of_subset cs (applyChanges d cs)
    (fun _ hc => mem_ids_applyChanges_self cs d hc)

/-- The big-endian u32 encoding is 4 bytes long. -/
theorem be32_length (n : Nat) : (be32 n).length = 4 := rfl

/-- Big-endian u32 decode inverts encode below 2 to the 32. -/
theorem dec32_be32 {n : Nat} (h : n < 2 ^ 32) : dec32 (be32 n) = n := by
  simp only [be32, dec32, List.foldl]
  omega

/-- The little-endian encoding has the requested width. -/
theorem leBytes_length : ∀ (k n : Nat), (leBytes k n).length = k
  | 0, _ => rfl
  | k + 1, n => by simp [leBytes, leBytes_length k]

/-- Little-endian decode inverts encode below 256 to the width. -/
theorem leDec_leBytes : ∀ (k n : Nat), n < 256 ^ k → leDec (leBytes k n) = n
  | 0, n, h => by
    simp only [Nat.pow_zero, Nat.lt_one_iff] at h
    simp [leBytes, leDec, h]
  | k + 1, n, h => by
    have hdiv : n / 256 < 256 ^ k := by
      rw [Nat.div_lt_iff_lt_mul (by norm_num)]
      calc n < 256 ^ (k + 1) := h
      _ = 256 ^ k * 256 := by ring
    simp only [leBytes, leDec, List.foldr]
    have := leDec_leBytes k (n / 256) hdiv
    simp only [leDec] at this
    rw [this]
    omega

/-- The varint decoder inverts the varint encoder on any continuation. -/
theorem varintDec_varint {n : Nat} (h : n < 2 ^ 64) (r : List Nat) :
    varintDec (varint n ++ r) = some (n, r) := by
  have h64 : n < 18446744073709551616 := by norm_num at h; exact h
  unfold varint
  by_cases h1 : n < 251
  · simp [varintDec, h1]
  · by_cases h2 : n < 65536
    · have hlen : (leBytes 2 n).length = 2 := leBytes_length 2 n
      have hguard : ¬ (leBytes 2 n ++ r).length < 2 := by
        rw [List.length_append, hlen]; omega
      have hdec : leDec (leBytes 2 n) = n := leDec_leBytes 2 n (by norm_num; omega)
      simp [h1, h2, varintDec, hguard, List.take_left' hlen, List.drop_left' hlen, hdec]
      omega
    · by_cases h3 : n < 4294967296
      · have hlen : (leBytes 4 n).length = 4 := leBytes_length 4 n
        have hguard : ¬ (leBytes 4 n ++ r).length < 4 := by
          rw [List.length_append, hlen]; omega
        have hdec : leDec (leBytes 4 n) = n := leDec_leBytes 4 n (by norm_num; omega)
        simp [h1, h2, h3, varintDec, hguard, List.take_left' hlen, List.drop_left' hlen, hdec]
        omega
      · have hlen : (leBytes 8 n).length = 8 := leBytes_length 8 n
        have hguard : ¬ (leBytes 8 n ++ r).length < 8 := by
          rw [List.length_append, hlen]; omega
        have hdec : leDec (leBytes 8 n) = n := leDec_leBytes 8 n (by norm_num; omega)
        simp [h1, h2, h3, varintDec, hguard, List.take_left' hlen, List.drop_left' hlen, hdec]
        omega

/-- The byte-vector decoder inverts the length-prefixed encoding on any
continuation. -/
theorem decodeBytes_round {v : List Nat} (h : v.length < 2 ^ 64) (r : List Nat) :
    decodeBytes (varint v.length ++ (v ++ r)) = some (v, r) := by
  unfold decodeBytes
  rw [varintDec_varint h]
  have hguard : ¬ (v ++ r).length < v.length := by
    rw [List.length_append]; omega
  simp [hguard, List.take_left, List.drop_left]

/-- The SyncMessage decoder inverts the encoder on any continuation, for
well-formed messages whose encoding fits one frame. -/
theorem decodeSync_encodeSync {msg : SyncMessage} (hwf : msg.wf)
    (hsize : (encodeSync msg).length ≤ MAX_FRAME) (r : List Nat) :
    decodeSync (encodeSync msg ++ r) = some (msg, r) := by
  cases msg with
  | deltaChange v =>
    have hv : v.length < 2 ^ 64 := by
      simp [encodeSync, MAX_FRAME, List.length_append] at hsize
      norm_num
      omega
    simp only [encodeSync, List.append_assoc]
    rw [show varint 0 = [0] from rfl]
    simp only [decodeSync, varintDec, List.cons_append]
    rw [if_pos (by norm_num)]
    simp [decodeBytes_round hv r]
  | state v =>
    have hv : v.length < 2 ^ 64 := by
      simp [encodeSync, MAX_FRAME, List.length_append] at hsize
      norm_num
      omega
    simp only [encodeSync, List.append_assoc]
    rw [show varint 1 = [1] from rfl]
    simp only [decodeSync, varintDec, List.cons_append]
    rw [if_pos (by norm_num)]
    simp [decodeBytes_round hv r]
  | requestState siteId =>
    have hid : siteId < 2 ^ 32 := hwf
    have h64 : siteId < 2 ^ 64 := by norm_num at hid ⊢; omega
    simp only [encodeSync, List.append_assoc]
    rw [show varint 2 = [2] from rfl]
    have houter : varintDec ([2] ++ (varint siteId ++ r)) = some (2, varint siteId ++ r) := by
      simp [varintDec]
    simp only [decodeSync]
    rw [houter]
    simp only [varintDec_varint h64 r]
    exact if_pos (show siteId < 4294967296 from by norm_num at hid ⊢; omega)
  | announce v =>
    have hv : v.length < 2 ^ 64 := by
      simp [encodeSync, MAX_FRAME, List.length_append] at hsize
      norm_num
      omega
    simp only [encodeSync, List.append_assoc]
    rw [show varint 3 = [3] from rfl]
    simp only [decodeSync, varintDec, List.cons_append]
    rw [if_pos (by norm_num)]
    simp [decodeBytes_round hv r]
  | alive =>
    rw [show encodeSync .alive = [4] from rfl]
    simp [decodeSync, varintDec]
  | shutdown =>
    rw [show encodeSync .shutdown = [5] from rfl]
    simp [decodeSync, varintDec]

/-- C9: stream codec round trip (proto.rs write_message / read_message).
For every SyncMessage whose encoding is at most 64 MiB, writing it with
the length-prefixed stream framing and then reading from the resulting
byte stream returns the same message and leaves the rest of the stream; a
stream that ends before a complete 4-byte length prefix yields the closed
(ok none) result rather than an error; and a length prefix exceeding
64 MiB is rejected as an error. -/
theorem c9_stream_codec_round_trip :
    (∀ (msg : SyncMessage) (r : List Nat), msg.wf →
      (encodeSync msg).length ≤ MAX_FRAME →
      readMessage (writeMessage msg ++ r) = .ok (some (msg, r)))
    ∧ (∀ s : List Nat, s.length < 4 → readMessage s = .ok none)
    ∧ (∀ s : List Nat, 4 ≤ s.length → MAX_FRAME < dec32 (s.take 4) →
        readMessage s = .error "Message too large") := by
  refine ⟨?_, ?_, ?_⟩
  · intro msg r hwf hsize
    unfold writeMessage readMessage
    rw [List.append_assoc]
    have hlenpre : (be32 (encodeSync msg).length).length = 4 := be32_length _
    have hL32 : (encodeSync msg).length < 2 ^ 32 := by
      have : MAX_FRAME < 2 ^ 32 := by norm_num [MAX_FRAME]
      omega
    rw [List.take_left' hlenpre, List.drop_left' hlenpre, dec32_be32 hL32]
    have hlentot :
        ¬ (be32 (encodeSync msg).length ++ (encodeSync msg ++ r)).length < 4 := by
      rw [List.length_append, hlenpre]; omega
    rw [if_neg hlentot, if_neg (by omega)]
    have hbody : ¬ (encodeSync msg ++ r).length < (encodeSync msg).length := by
      rw [List.length_append]; omega
    rw [if_neg hbody, List.take_left, List.drop_left]
    have hdec : decodeSync (encodeSync msg) = some (msg, []) := by
      have := decodeSync_encodeSync hwf hsize []
      rwa [List.append_nil] at this
    rw [hdec]
  · intro s hs
    unfold readMessage
    rw [if_pos hs]
  · intro s hs hlen
    unfold readMessage
    rw [if_neg (by omega), if_pos hlen]

/-- C9 witness: the round trip at the concrete message RequestState 7 with
one trailing byte, the closed result on the empty stream, and the
too-large error on a frame whose prefix claims 2 to the 32 minus 1
bytes. -/
theorem c9_stream_codec_round_trip_witness :
    readMessage (writeMessage (.requestState 7) ++ [9]) = .ok (some (.requestState 7, [9]))
    ∧ readMessage [] = .ok none
    ∧ readMessage [255, 255, 255, 255] = .error "Message too large" :=
  ⟨c9_stream_codec_round_trip.1 (.requestState 7) [9] (by norm_num [SyncMessage.wf])
      (by norm_num [encodeSync, varint, MAX_FRAME]),
   c9_stream_codec_round_trip.2.1 [] (by norm_num),
   c9_stream_codec_round_trip.2.2 [255, 255, 255, 255] (by norm_num)
      (by norm_num [dec32, MAX_FRAME])⟩

/-- Parsing the four big-endian header fields and the body out of a
datagram assembled by the sender. -/
theorem headerFields (a b c d : Nat) (body : List Nat) :
    ((be32 a ++ be32 b ++ be32 c ++ be32 d ++ body).drop 4).take 4 = be32 b
    ∧ ((be32 a ++ be32 b ++ be32 c ++ be32 d ++ body).drop 8).take 4 = be32 c
    ∧ ((be32 a ++ be32 b ++ be32 c ++ be32 d ++ body).drop 12).take 4 = be32 d
    ∧ (be32 a ++ be32 b ++ be32 c ++ be32 d ++ body).drop 16 = body
    ∧ (be32 a ++ be32 b ++ be32 c ++ be32 d ++ body).length = 16 + body.length := by
  have h4 : (be32 a ++ (be32 b ++ (be32 c ++ (be32 d ++ body)))).drop 4 =
      be32 b ++ (be32 c ++ (be32 d ++ body)) := List.drop_left' (be32_length a)
  have h8 : (be32 b ++ (be32 c ++ (be32 d ++ body))).drop 4 =
      be32 c ++ (be32 d ++ body) := List.drop_left' (be32_length b)
  have h12 : (be32 c ++ (be32 d ++ body)).drop 4 =
      be32 d ++ body := List.drop_left' (be32_length c)
  have h16 : (be32 d ++ body).drop 4 = body := List.drop_left' (be32_length d)
  simp only [List.append_assoc]
  refine ⟨?_, ?_, ?_, ?_, ?_⟩
  · rw [h4, List.take_left' (be32_length b)]
  · rw [show (8 : Nat) = 4 + 4 from rfl, ← List.drop_drop, h4, h8,
      List.take_left' (be32_length c)]
  · rw [show (12 : Nat) = 4 + 8 from rfl, ← List.drop_drop,
      show (8 : Nat) = 4 + 4 from rfl, ← List.drop_drop, h4, h8, h12,
      List.take_left' (be32_length d)]
  · rw [show (16 : Nat) = 4 + 12 from rfl, ← List.drop_drop,
      show (12 : Nat) = 4 + 8 from rfl, ← List.drop_drop,
      show (8 : Nat) = 4 + 4 from rfl, ← List.drop_drop, h4, h8, h12, h16]
  · simp only [List.length_append, be32_length]
    omega

/-- C1: evaluation of the datagram codec at a message whose serialisation
is exactly 1400 bytes (one full BUF_SIZE). The sender emits exactly one
fragment but stamps num = 1400 / 1400 + 1 = 2 into every packet, so num
does not equal the emitted fragment count k = 1, and the receiver — whose
completion condition is partials.len() == num — never reassembles the
message even though every emitted fragment arrived. This contradicts the
claimed round trip (and the code's own description of num as the total
number of partials for the seq). -/
theorem c1_exact_multiple_fragment_loss :
    (mcastSendFragments 7 1 (List.replicate 1400 0)).length = 1
    ∧ mcastSendFragments 7 1 (List.replicate 1400 0) =
        [be32 7 ++ be32 1 ++ be32 2 ++ be32 0 ++ List.replicate 1400 0]
    ∧ dec32 (((be32 7 ++ be32 1 ++ be32 2 ++ be32 0 ++ List.replicate 1400 0).drop 8).take 4)
        = 2
    ∧ recvRun spDefault (mcastSendFragments 7 1 (List.replicate 1400 0)) = [] := by
  have hsend : mcastSendFragments 7 1 (List.replicate 1400 0) =
      [be32 7 ++ be32 1 ++ be32 2 ++ be32 0 ++ List.replicate 1400 0] := by
    rw [mcastSendFragments]
    rw [show (List.replicate 1400 (0:Nat)).length / BUF_SIZE + 1 = 2 from by
      simp only [List.length_replicate, BUF_SIZE]]
    rw [sendChunks]
    rw [dif_neg (by simp only [List.length_replicate]; norm_num)]
    rw [List.take_of_length_le (by simp only [List.length_replicate, BUF_SIZE]; norm_num)]
    rw [List.drop_eq_nil_of_le (by simp only [List.length_replicate, BUF_SIZE]; norm_num)]
    rw [sendChunks]
    rw [dif_pos (show ([] : List Nat).length = 0 from rfl)]
  have hf := headerFields 7 1 2 0 (List.replicate 1400 0)
  refine ⟨by rw [hsend]; rfl, hsend, ?_, ?_⟩
  · rw [hf.2.1, dec32_be32 (show (2:Nat) < 2 ^ 32 by norm_num)]
  · rw [hsend]
    have hfill : fillFromBuffer spDefault
        (be32 7 ++ be32 1 ++ be32 2 ++ be32 0 ++ List.replicate 1400 0) =
        { seq := 1, num := 2, partials := [(0, List.replicate 1400 0)] } := by
      simp only [fillFromBuffer, hf.1, hf.2.1, hf.2.2.1, hf.2.2.2.1,
        dec32_be32 (show (1:Nat) < 2 ^ 32 by norm_num),
        dec32_be32 (show (2:Nat) < 2 ^ 32 by norm_num),
        dec32_be32 (show (0:Nat) < 2 ^ 32 by norm_num), spDefault]
      norm_num
    have hstep : recvStep spDefault
        (be32 7 ++ be32 1 ++ be32 2 ++ be32 0 ++ List.replicate 1400 0) =
        ({ seq := 1, num := 2, partials := [(0, List.replicate 1400 0)] }, none) := by
      rw [recvStep, if_neg (by rw [hf.2.2.2.2]; simp only [List.length_replicate]; norm_num),
        hfill, getBuffer, if_pos (by norm_num)]
    rw [recvRun, hstep]
    rfl

/-- A concrete one-list state used by the concrete evaluations below. -/
def sampleState1 : TodoState :=
  { lists := [{ title := "A", items := [], metadata := [] }] }

/-- A concrete change whose effect installs sampleState1. -/
def sampleChange : Change :=
  { id := 1, eff := fun _ => sampleState1 }

/-- A concrete full-state document for a remote peer. -/
def sampleRDoc : RDoc :=
  { state := sampleState1, actor := 7, changes := [sampleChange] }

/-- A concrete handler state: a fresh local document with actor 3, an
empty alive table, and origin 5 already in state_seen. -/
def sampleRead : ReadState :=
  { site := { commit := freshDoc 3, alive := [] }, stateSet := [5] }

/-- write_notify never emits a TodoEvent: the function has no handle on
the event channel. -/
theorem writeNotifyStep_events (d : Doc) (cmd : TodoCommand) :
    (writeNotifyStep d cmd).events = [] := by
  cases cmd <;> rfl

/-- What one read_notify iteration does with a well-formed DeltaChange
from an origin whose full state has been merged: apply the delta, emit one
StateUpdate, request one save, send nothing outbound, continue. -/
theorem readNotifyStep_delta_good (siteId now : Nat) (s : ReadState) (origin : Nat)
    (cs : List Change) (h1 : origin ∈ s.stateSet) (h2 : origin ≠ siteId) :
    readNotifyStep siteId now s origin (.deltaChange (.good cs)) =
      { state := { site := { commit := applyChanges s.site.commit cs,
                             alive := s.site.alive },
                   stateSet := s.stateSet }
        events := [.stateUpdate (applyChanges s.site.commit cs).state]
        outbound := []
        saves := 1
        halt := false } := by
  unfold readNotifyStep
  rw [if_neg h2]
  simp [h1]

/-- Merging a well-formed full-state blob always succeeds. -/
theorem mergeState_good_isSome (d : Doc) (r : RDoc) :
    ∃ d1, mergeState d (.good r) = some d1 := by
  unfold mergeState
  by_cases h : d.state.lists.isEmpty <;> simp [h]

/-- The State/Announce arm on a well-formed blob emits exactly one
StateUpdate. -/
theorem readMergeArm_good_events (s : ReadState) (origin : Nat) (isAnn : Bool)
    (r : RDoc) :
    ∃ ts, (readMergeArm s origin isAnn (.good r)).events = [.stateUpdate ts] := by
  obtain ⟨d1, hd⟩ := mergeState_good_isSome s.site.commit r
  refine ⟨d1.state, ?_⟩
  unfold readMergeArm
  rw [hd]

/-- C8: self-suppression. A received message whose origin site id equals
the local site id is discarded by read_notify before any dispatch: the
state (document, state_seen, alive table) is unchanged and no event,
outbound message or save request is produced. -/
theorem c8_self_suppression (siteId now : Nat) (s : ReadState) (origin : Nat)
    (msg : MSyncMessage) (h : origin = siteId) :
    readNotifyStep siteId now s origin msg =
      { state := s, events := [], outbound := [], saves := 0, halt := false } := by
  unfold readNotifyStep
  rw [if_pos h]

/-- C8 witness: a State message from the local site id 9 is discarded
whole. -/
theorem c8_self_suppression_witness :
    readNotifyStep 9 0 sampleRead 9 (.state (.good sampleRDoc)) =
      { state := sampleRead, events := [], outbound := [], saves := 0, halt := false } :=
  c8_self_suppression 9 0 sampleRead 9 (.state (.good sampleRDoc)) rfl

/-- C5: SiteState::merge. On a loadable remote state, when the local
document hydrates to no lists the result is the remote document rebound to
the local actor: its content equals the remote content and its actor id is
the pre-merge local actor id; when the local lists are non-empty the
remote changes are merged into the local document instead. -/
theorem c5_merge_pristine_adoption (d : Doc) (r : RDoc) :
    (d.state.lists = [] →
      ∃ d1, mergeState d (.good r) = some d1 ∧ d1.state = r.state ∧ d1.actor = d.actor)
    ∧ (d.state.lists ≠ [] →
      mergeState d (.good r) = some (applyChanges d r.changes)) := by
  constructor
  · intro h
    refine ⟨{ loadRDoc r with actor := d.actor }, ?_, rfl, rfl⟩
    simp only [mergeState]
    rw [if_pos (by simp [h])]
  · intro h
    simp only [mergeState]
    rw [if_neg (by simp [h])]

/-- C5 witness: a pristine document with actor 3 merging sampleRDoc adopts
its content and keeps actor 3, and a non-empty document merges instead. -/
theorem c5_merge_pristine_adoption_witness :
    (∃ d1, mergeState (freshDoc 3) (.good sampleRDoc) = some d1
      ∧ d1.state = sampleRDoc.state ∧ d1.actor = (freshDoc 3).actor)
    ∧ mergeState (loadRDoc sampleRDoc) (.good sampleRDoc) =
        some (applyChanges (loadRDoc sampleRDoc) sampleRDoc.changes) :=
  ⟨(c5_merge_pristine_adoption (freshDoc 3) sampleRDoc).1 rfl,
   (c5_merge_pristine_adoption (loadRDoc sampleRDoc) sampleRDoc).2 (by
     simp [loadRDoc, sampleRDoc, sampleState1])⟩

/-- C4 (amended): a DeltaChange from an origin already in state_seen is
applied to the CRDT, one StateUpdate is emitted and one save requested —
but there is no dedup set to insert a hash into, and the message is not
rebroadcast: the outbound channel receives nothing. -/
theorem c4_delta_from_seen_origin (siteId now : Nat) (s : ReadState) (origin : Nat)
    (cs : List Change) (h1 : origin ∈ s.stateSet) (h2 : origin ≠ siteId) :
    readNotifyStep siteId now s origin (.deltaChange (.good cs)) =
      { state := { site := { commit := applyChanges s.site.commit cs,
                             alive := s.site.alive },
                   stateSet := s.stateSet }
        events := [.stateUpdate (applyChanges s.site.commit cs).state]
        outbound := []
        saves := 1
        halt := false } :=
  readNotifyStep_delta_good siteId now s origin cs h1 h2

/-- C4 witness: the concrete delta from seen origin 5 is applied (one
StateUpdate, one save) with empty outbound. -/
theorem c4_delta_from_seen_origin_witness :
    readNotifyStep 9 0 sampleRead 5 (.deltaChange (.good [sampleChange])) =
      { state := { site := { commit := applyChanges sampleRead.site.commit [sampleChange],
                             alive := sampleRead.site.alive },
                   stateSet := sampleRead.stateSet }
        events := [.stateUpdate (applyChanges sampleRead.site.commit [sampleChange]).state]
        outbound := []
        saves := 1
        halt := false } :=
  c4_delta_from_seen_origin 9 0 sampleRead 5 [sampleChange] (by decide) (by decide)

/-- C4 counterexample: at a concrete DeltaChange from seen origin 5, the
handler processes the delta (it requests a save and emits a StateUpdate)
yet places nothing on the outbound channel — no rebroadcast of the
DeltaChange occurs, contradicting the claim. -/
theorem c4_counterexample_no_rebroadcast :
    (readNotifyStep 9 0 sampleRead 5 (.deltaChange (.good [sampleChange]))).outbound = []
    ∧ (readNotifyStep 9 0 sampleRead 5 (.deltaChange (.good [sampleChange]))).saves = 1
    ∧ (readNotifyStep 9 0 sampleRead 5
        (.deltaChange (.good [sampleChange]))).events.length = 1 := by
  refine ⟨rfl, rfl, rfl⟩

/-- C3 (amended): read_notify keeps no dedup set, so a DeltaChange blob
identical to one already applied from a state_seen origin is processed
again: load_incremental is invoked a second time and a second StateUpdate
is emitted; but CRDT change application is idempotent by hash, so the
replica state (document, state_seen, alive) after the second application
equals the state after the first, the second StateUpdate carries the same
TodoState, and neither application rebroadcasts anything. -/
theorem c3_duplicate_delta_idempotent (siteId now1 now2 : Nat) (s : ReadState)
    (origin : Nat) (cs : List Change) (h1 : origin ∈ s.stateSet) (h2 : origin ≠ siteId) :
    (readNotifyStep siteId now2
        (readNotifyStep siteId now1 s origin (.deltaChange (.good cs))).state
        origin (.deltaChange (.good cs))).state =
      (readNotifyStep siteId now1 s origin (.deltaChange (.good cs))).state
    ∧ (readNotifyStep siteId now1 s origin (.deltaChange (.good cs))).events =
        [.stateUpdate (applyChanges s.site.commit cs).state]
    ∧ (readNotifyStep siteId now2
        (readNotifyStep siteId now1 s origin (.deltaChange (.good cs))).state
        origin (.deltaChange (.good cs))).events =
        [.stateUpdate (applyChanges s.site.commit cs).state]
    ∧ (readNotifyStep siteId now1 s origin (.deltaChange (.good cs))).outbound = []
    ∧ (readNotifyStep siteId now2
        (readNotifyStep siteId now1 s origin (.deltaChange (.good cs))).state
        origin (.deltaChange (.good cs))).outbound = [] := by
  have e1 := readNotifyStep_delta_good siteId now1 s origin cs h1 h2
  have e2 := readNotifyStep_delta_good siteId now2
    { site := { commit := applyChanges s.site.commit cs, alive := s.site.alive }
      stateSet := s.stateSet } origin cs h1 h2
  simp only [e1]
  simp only [e2]
  simp [applyChanges_idem]

/-- C3 witness: the duplicate-delta behaviour at the concrete sample
state. -/
theorem c3_duplicate_delta_idempotent_witness :
    (readNotifyStep 9 1
        (readNotifyStep 9 0 sampleRead 5 (.deltaChange (.good [sampleChange]))).state
        5 (.deltaChange (.good [sampleChange]))).state =
      (readNotifyStep 9 0 sampleRead 5 (.deltaChange (.good [sampleChange]))).state
    ∧ (readNotifyStep 9 0 sampleRead 5 (.deltaChange (.good [sampleChange]))).events =
        [.stateUpdate (applyChanges sampleRead.site.commit [sampleChange]).state]
    ∧ (readNotifyStep 9 1
        (readNotifyStep 9 0 sampleRead 5 (.deltaChange (.good [sampleChange]))).state
        5 (.deltaChange (.good [sampleChange]))).events =
        [.stateUpdate (applyChanges sampleRead.site.commit [sampleChange]).state]
    ∧ (readNotifyStep 9 0 sampleRead 5 (.deltaChange (.good [sampleChange]))).outbound = []
    ∧ (readNotifyStep 9 1
        (readNotifyStep 9 0 sampleRead 5 (.deltaChange (.good [sampleChange]))).state
        5 (.deltaChange (.good [sampleChange]))).outbound = [] :=
  c3_duplicate_delta_idempotent 9 0 1 sampleRead 5 [sampleChange] (by decide) (by decide)

/-- C3 counterexample: processing the same DeltaChange blob twice emits a
second StateUpdate — the events of the two-message run are two (equal)
StateUpdates, contradicting the claim that no second StateUpdate is
emitted for the second application of the same blob. -/
theorem c3_counterexample_second_state_update :
    (runRead 9 sampleRead
      [(0, 5, .deltaChange (.good [sampleChange])),
       (1, 5, .deltaChange (.good [sampleChange]))]).events =
      [.stateUpdate sampleState1, .stateUpdate sampleState1] := rfl

/-- C7 (amended): when applying an incoming DeltaChange fails (malformed
delta from a state_seen origin), the error propagates out of read_notify
through the ? operator: the failed apply leaves the replica state
unmodified and produces no event, outbound message or save, but the
handler halts — the remaining inbound messages are never processed, and no
marking of the peer or later RequestState happens. -/
theorem c7_malformed_delta_halts (siteId now : Nat) (s : ReadState) (origin : Nat)
    (h1 : origin ∈ s.stateSet) (h2 : origin ≠ siteId) :
    readNotifyStep siteId now s origin (.deltaChange .malformed) =
      { state := s, events := [], outbound := [], saves := 0, halt := true }
    ∧ ∀ rest, runRead siteId s ((now, origin, .deltaChange .malformed) :: rest) =
      { state := s, events := [], outbound := [], saves := 0, halted := true } := by
  have estep : readNotifyStep siteId now s origin (.deltaChange .malformed) =
      { state := s, events := [], outbound := [], saves := 0, halt := true } := by
    unfold readNotifyStep
    rw [if_neg h2]
    simp [h1]
  refine ⟨estep, fun rest => ?_⟩
  simp only [runRead, estep]
  rw [if_pos trivial]

/-- C7 witness: the malformed-delta halt at the concrete sample state,
with the run instantiated at the empty remainder. -/
theorem c7_malformed_delta_halts_witness :
    readNotifyStep 9 0 sampleRead 5 (.deltaChange .malformed) =
      { state := sampleRead, events := [], outbound := [], saves := 0, halt := true }
    ∧ runRead 9 sampleRead [(0, 5, .deltaChange .malformed)] =
      { state := sampleRead, events := [], outbound := [], saves := 0, halted := true } :=
  ⟨(c7_malformed_delta_halts 9 0 sampleRead 5 (by decide) (by decide)).1,
   (c7_malformed_delta_halts 9 0 sampleRead 5 (by decide) (by decide)).2 []⟩

/-- C7 counterexample: after a malformed DeltaChange from seen origin 5,
the handler run terminates without processing the following well-formed
DeltaChange — no RequestState is sent and no further message is handled,
contradicting the claim that the failure does not terminate the handling
of subsequent remote messages. -/
theorem c7_counterexample_handler_terminates :
    runRead 9 sampleRead
      [(0, 5, .deltaChange .malformed), (1, 5, .deltaChange (.good [sampleChange]))] =
      { state := sampleRead, events := [], outbound := [], saves := 0, halted := true } := rfl

/-- C2 (amended): a StateUpdate is emitted on load — both when a saved
document is read from disk and when a fresh empty document is created —
and on every accepted remote update (a loadable State, a loadable
Announce, and a loadable DeltaChange from a state_seen origin); but local
mutations emit no event at all: write_notify has no handle on the event
channel, so its event output is always empty. -/
theorem c2_state_update_emission :
    (∀ (r : RDoc) (a : Nat), ∃ st,
      loadSite (some (.good r)) a = some (st, [.stateUpdate r.state]))
    ∧ (∀ a : Nat, ∃ st, loadSite none a = some (st, [.stateUpdate { lists := [] }]))
    ∧ (∀ (siteId now : Nat) (s : ReadState) (origin : Nat) (r : RDoc),
      origin ≠ siteId → ∃ ts,
        (readNotifyStep siteId now s origin (.state (.good r))).events =
          [.stateUpdate ts])
    ∧ (∀ (siteId now : Nat) (s : ReadState) (origin : Nat) (r : RDoc),
      origin ≠ siteId → ∃ ts,
        (readNotifyStep siteId now s origin (.announce (.good r))).events =
          [.stateUpdate ts])
    ∧ (∀ (siteId now : Nat) (s : ReadState) (origin : Nat) (cs : List Change),
      origin ≠ siteId → origin ∈ s.stateSet → ∃ ts,
        (readNotifyStep siteId now s origin (.deltaChange (.good cs))).events =
          [.stateUpdate ts])
    ∧ (∀ (d : Doc) (cmd : TodoCommand), (writeNotifyStep d cmd).events = []) := by
  refine ⟨?_, ?_, ?_, ?_, ?_, writeNotifyStep_events⟩
  · intro r a
    exact ⟨{ commit := loadRDoc r, alive := [] }, rfl⟩
  · intro a
    exact ⟨{ commit := reconcile (freshDoc a) { lists := [] }, alive := [] }, rfl⟩
  · intro siteId now s origin r h
    have hm := readMergeArm_good_events s origin false r
    unfold readNotifyStep
    rw [if_neg h]
    exact hm
  · intro siteId now s origin r h
    have hm := readMergeArm_good_events s origin true r
    unfold readNotifyStep
    rw [if_neg h]
    exact hm
  · intro siteId now s origin cs h hmem
    exact ⟨(applyChanges s.site.commit cs).state,
      by rw [readNotifyStep_delta_good siteId now s origin cs hmem h]⟩

/-- C2 witness: each emission case at concrete inputs. -/
theorem c2_state_update_emission_witness :
    (∃ st, loadSite (some (.good sampleRDoc)) 3 =
      some (st, [.stateUpdate sampleRDoc.state]))
    ∧ (∃ st, loadSite none 3 = some (st, [.stateUpdate { lists := [] }]))
    ∧ (∃ ts, (readNotifyStep 9 0 sampleRead 5 (.state (.good sampleRDoc))).events =
        [.stateUpdate ts])
    ∧ (∃ ts, (readNotifyStep 9 0 sampleRead 5 (.announce (.good sampleRDoc))).events =
        [.stateUpdate ts])
    ∧ (∃ ts, (readNotifyStep 9 0 sampleRead 5
        (.deltaChange (.good [sampleChange]))).events = [.stateUpdate ts])
    ∧ (writeNotifyStep (freshDoc 3) (.addList "A" [])).events = [] :=
  ⟨c2_state_update_emission.1 sampleRDoc 3,
   c2_state_update_emission.2.1 3,
   c2_state_update_emission.2.2.1 9 0 sampleRead 5 sampleRDoc (by decide),
   c2_state_update_emission.2.2.2.1 9 0 sampleRead 5 sampleRDoc (by decide),
   c2_state_update_emission.2.2.2.2.1 9 0 sampleRead 5 [sampleChange]
     (by decide) (by decide),
   c2_state_update_emission.2.2.2.2.2 (freshDoc 3) (.addList "A" [])⟩

/-- C2 counterexample: a local mutation that the handler applies (AddList,
which changes the hydrated state) emits no StateUpdate — the event output
of write_notify is empty, contradicting the claim that a StateUpdate is
emitted on every local mutation. -/
theorem c2_counterexample_local_mutation_no_event :
    (writeNotifyStep (freshDoc 3) (.addList "A" [])).events = []
    ∧ (writeNotifyStep (freshDoc 3) (.addList "A" [])).doc.state =
      { lists := [{ title := "A", items := [], metadata := [] }] } :=
  ⟨rfl, rfl⟩

/-- C6: out-of-range commands are silent no-ops. For every RemoveList,
RenameList, AddTodo, RenameTodo, ToggleTodo, RemoveTodo or ClearCompleted
whose list index (or, where applicable, item index) is out of range for
the current state, the hydrated TodoState after write_notify processes the
command equals the TodoState before; the handler is total, so no error is
surfaced to the caller. -/
theorem c6_out_of_range_noop (d : Doc) (cmd : TodoCommand)
    (h : cmdOutOfRange cmd d.state = true) :
    (writeNotifyStep d cmd).doc.state = d.state := by
  cases cmd with
  | addList title metadata => simp [cmdOutOfRange] at h
  | shutdown => simp [cmdOutOfRange] at h
  | removeList li =>
    simp only [cmdOutOfRange, decide_eq_true_eq] at h
    have hmut : writeMutate d (.removeList li) = (d, false) := by
      simp only [writeMutate]
      rw [if_neg (by omega)]
    simp [writeNotifyStep, hmut]
  | renameList li title =>
    simp only [cmdOutOfRange, decide_eq_true_eq] at h
    have hnone : d.state.lists[li]? = none := List.getElem?_eq_none h
    have hmut : writeMutate d (.renameList li title) = (d, false) := by
      simp only [writeMutate, hnone]
    simp [writeNotifyStep, hmut]
  | addTodo li text metadata =>
    simp only [cmdOutOfRange, decide_eq_true_eq] at h
    have hnone : d.state.lists[li]? = none := List.getElem?_eq_none h
    have hmut : writeMutate d (.addTodo li text metadata) = (d, false) := by
      simp only [writeMutate, hnone]
    simp [writeNotifyStep, hmut]
  | renameTodo li ii text =>
    cases hl : d.state.lists[li]? with
    | none =>
      have hmut : writeMutate d (.renameTodo li ii text) = (d, false) := by
        simp only [writeMutate, hl]
      simp [writeNotifyStep, hmut]
    | some l =>
      simp only [cmdOutOfRange, hl, decide_eq_true_eq] at h
      have hitem : l.items[ii]? = none := List.getElem?_eq_none h
      have hset : d.state.lists.set li l = d.state.lists :=
        list_set_of_getElem? _ _ _ hl
      have hrec : reconcile d { lists := d.state.lists } = d := by
        unfold reconcile
        rw [if_pos rfl]
      have hmut : writeMutate d (.renameTodo li ii text) = (d, true) := by
        simp only [writeMutate, hl, hitem, hset, hrec]
      simp [writeNotifyStep, hmut]
  | toggleTodo li ii =>
    cases hl : d.state.lists[li]? with
    | none =>
      have hmut : writeMutate d (.toggleTodo li ii) = (d, false) := by
        simp only [writeMutate, hl]
      simp [writeNotifyStep, hmut]
    | some l =>
      simp only [cmdOutOfRange, hl, decide_eq_true_eq] at h
      have hitem : l.items[ii]? = none := List.getElem?_eq_none h
      have hmut : writeMutate d (.toggleTodo li ii) = (d, false) := by
        simp only [writeMutate, hl, hitem]
      simp [writeNotifyStep, hmut]
  | removeTodo li ii =>
    cases hl : d.state.lists[li]? with
    | none =>
      have hmut : writeMutate d (.removeTodo li ii) = (d, false) := by
        simp only [writeMutate, hl]
      simp [writeNotifyStep, hmut]
    | some l =>
      simp only [cmdOutOfRange, hl, decide_eq_true_eq] at h
      have hmut : writeMutate d (.removeTodo li ii) = (d, false) := by
        simp only [writeMutate, hl]
        rw [if_neg (by omega)]
      simp [writeNotifyStep, hmut]
  | clearCompleted li =>
    simp only [cmdOutOfRange, decide_eq_true_eq] at h
    have hnone : d.state.lists[li]? = none := List.getElem?_eq_none h
    have hmut : writeMutate d (.clearCompleted li) = (d, false) := by
      simp only [writeMutate, hnone]
    simp [writeNotifyStep, hmut]

/-- C6 witness: removing list 0 of an empty state and toggling item 0 of a
list with no items both leave the hydrated state unchanged. -/
theorem c6_out_of_range_noop_witness :
    cmdOutOfRange (.removeList 0) (freshDoc 3).state = true
    ∧ (writeNotifyStep (freshDoc 3) (.removeList 0)).doc.state = (freshDoc 3).state
    ∧ cmdOutOfRange (.toggleTodo 0 0) (loadRDoc sampleRDoc).state = true
    ∧ (writeNotifyStep (loadRDoc sampleRDoc) (.toggleTodo 0 0)).doc.state =
      (loadRDoc sampleRDoc).state :=
  ⟨by decide,
   c6_out_of_range_noop (freshDoc 3) (.removeList 0) (by decide),
   by decide,
   c6_out_of_range_noop (loadRDoc sampleRDoc) (.toggleTodo 0 0) (by decide)⟩

/-- C10: for every command other than Shutdown — including out-of-range
commands that leave the state unchanged — write_notify attempts exactly
one outbound message, a DeltaChange carrying the document's incremental
save since the previous one (the flushed pending buffer of the mutated
document, empty for a no-op); the attempt is a try_send that the channel
drops silently when full. -/
theorem c10_always_delta_outbound (d : Doc) (cmd : TodoCommand) (h : cmd ≠ .shutdown) :
    (writeNotifyStep d cmd).outbound =
      [.deltaChange (.good (writeMutate d cmd).1.pending)]
    ∧ (writeNotifyStep d cmd).doc = { (writeMutate d cmd).1 with pending := [] } := by
  cases cmd
  case shutdown => exact absurd rfl h
  all_goals exact ⟨rfl, rfl⟩

/-- C10 witness: the AddList command yields exactly one DeltaChange
carrying the flushed incremental save. -/
theorem c10_always_delta_outbound_witness :
    (writeNotifyStep (freshDoc 3) (.addList "A" [])).outbound =
      [.deltaChange (.good (writeMutate (freshDoc 3) (.addList "A" [])).1.pending)]
    ∧ (writeNotifyStep (freshDoc 3) (.addList "A" [])).doc =
      { (writeMutate (freshDoc 3) (.addList "A" [])).1 with pending := [] } :=
  c10_always_delta_outbound (freshDoc 3) (.addList "A" []) (by decide)
